import Mathlib

set_option maxHeartbeats 1000000
set_option linter.unusedVariables false

/-
Verification development for the wildfire cellular-automaton core:
tile coordinate math, terrain classification, grid stepping and ignition.
JavaScript numbers are modelled as exact rationals where the source code
only performs field arithmetic and comparisons, and as real numbers where
trigonometric functions appear.  `Math.random()` is modelled as an explicit
stream of draws `rng : ℕ → ℝ` consumed left to right.
-/

inductive TerrainType where
  | FOREST
  | GRASS
  | URBAN
  | WATER
  | FARMLAND
  deriving DecidableEq, Repr

inductive BurnState where
  | UNBURNED
  | BURNING
  | BURNED
  deriving DecidableEq, Repr

/-- Truncation toward zero on rationals, matching the rounding used by the
JavaScript remainder operator. -/
def ratTrunc (q : ℚ) : ℤ :=
  if 0 ≤ q then ⌊q⌋ else ⌈q⌉

/-- The JavaScript remainder `a % b` on exact rationals:
`a - b * trunc (a / b)`. -/
def jsRemQ (a b : ℚ) : ℚ :=
  a - b * (ratTrunc (a / b) : ℚ)

/-- JavaScript `Math.round`: round half toward positive infinity. -/
def jround (q : ℚ) : ℤ := ⌊q + 1 / 2⌋

/-- Shallow embedding of `rgbToHsv` (terrain classifier): convert an RGB
triple to rounded hue, saturation and value exactly as the source does. -/
def rgbToHsv (r0 g0 b0 : ℚ) : ℤ × ℤ × ℤ :=
  let r := r0 / 255
  let g := g0 / 255
  let b := b0 / 255
  let mx := max r (max g b)
  let mn := min r (min g b)
  let diff := mx - mn
  let hRaw : ℚ :=
    if diff ≠ 0 then
      if mx = r then jsRemQ ((g - b) / diff) 6
      else if mx = g then (b - r) / diff + 2
      else (r - g) / diff + 4
    else 0
  let hRound := jround (60 * hRaw)
  let h := if hRound < 0 then hRound + 360 else hRound
  let s := if mx = 0 then 0 else jround (diff / mx * 100)
  let v := jround (mx * 100)
  (h, s, v)

/-- Shallow embedding of `classifyTerrain`: the ordered first-match rule
chain over the rounded HSV components. -/
def classifyTerrain (r g b : ℚ) : TerrainType :=
  let hsv := rgbToHsv r g b
  let h := hsv.1
  let s := hsv.2.1
  let v := hsv.2.2
  if 180 ≤ h ∧ h ≤ 240 ∧ 30 < s ∧ 20 < v then TerrainType.WATER
  else if 80 ≤ h ∧ h ≤ 160 ∧ 30 < s ∧ v < 60 then TerrainType.FOREST
  else if 60 ≤ h ∧ h ≤ 120 ∧ 20 < s ∧ 40 ≤ v then TerrainType.GRASS
  else if s < 20 ∧ 30 < v ∧ v < 80 then TerrainType.URBAN
  else if (30 ≤ h ∧ h ≤ 60) ∨ (0 ≤ h ∧ h ≤ 30) then TerrainType.FARMLAND
  else TerrainType.GRASS

/-- Shallow embedding of `getFlammability`.  The source `default` branch is
unreachable because the enumeration is closed. -/
def getFlammability : TerrainType → ℚ
  | TerrainType.FOREST => 0.8
  | TerrainType.GRASS => 0.6
  | TerrainType.FARMLAND => 0.4
  | TerrainType.URBAN => 0.2
  | TerrainType.WATER => 0.0

/-- The terrain produced by `sampleTerrainAtLocation` when no tile covers a
cell location: the source classifies the fixed fallback color (120, 150, 80)
in both of its fallback branches. -/
def sampleTerrainFallback : TerrainType := classifyTerrain 120 150 80

/-- Claim C2 evaluation: the fixed fallback color (120, 150, 80) used when
no tile covers a cell has HSV (86, 47, 59) and therefore matches the
Forest rule (hue 80-160, saturation over 30, value under 60), not Grass,
although the source comments call it the grass default. -/
theorem claim2_fallback_is_forest_not_grass :
    rgbToHsv 120 150 80 = (86, 47, 59) ∧
    sampleTerrainFallback = TerrainType.FOREST ∧
    sampleTerrainFallback ≠ TerrainType.GRASS := by
  refine ⟨?_, ?_, ?_⟩
  · norm_num [rgbToHsv, jsRemQ, ratTrunc, jround, max_def, min_def]
  · norm_num [sampleTerrainFallback, classifyTerrain, rgbToHsv, jsRemQ, ratTrunc,
      jround, max_def, min_def]
  · norm_num [sampleTerrainFallback, classifyTerrain, rgbToHsv, jsRemQ, ratTrunc,
      jround, max_def, min_def]
    decide

/-- Shallow embedding of `latLonToTile`: the Web Mercator tile projection,
over exact reals. -/
noncomputable def latLonToTile (lat lon : ℝ) (zoom : ℕ) : ℤ × ℤ :=
  let latRad := lat * Real.pi / 180
  let n : ℝ := 2 ^ zoom
  (⌊(lon + 180) / 360 * n⌋, ⌊(1 - Real.arsinh (Real.tan latRad) / Real.pi) / 2 * n⌋)

/-- Shallow embedding of `tileToLatLon`: tile indices back to the latitude
and longitude of the tile corner, over exact reals. -/
noncomputable def tileToLatLon (x y : ℤ) (zoom : ℕ) : ℝ × ℝ :=
  let n : ℝ := 2 ^ zoom
  let lon := (x : ℝ) / n * 360 - 180
  let latRad := Real.arctan (Real.sinh (Real.pi * (1 - 2 * (y : ℝ) / n)))
  (latRad * 180 / Real.pi, lon)

/-- Claim C9: composing tile-to-coordinate and coordinate-to-tile
conversions reproduces the tile indices: for tile indices in range at a
given zoom level, `latLonToTile` applied to `tileToLatLon x y zoom` at the
same zoom returns exactly (x, y). -/
theorem claim9_tile_roundtrip (x y : ℤ) (zoom : ℕ)
    (hx0 : 0 ≤ x) (hx : x < 2 ^ zoom) (hy0 : 0 ≤ y) (hy : y < 2 ^ zoom) :
    latLonToTile (tileToLatLon x y zoom).1 (tileToLatLon x y zoom).2 zoom
      = (x, y) := by
  simp only [latLonToTile, tileToLatLon]
  have hpi := Real.pi_ne_zero
  have hn : ((2:ℝ) ^ zoom) ≠ 0 := pow_ne_zero _ two_ne_zero
  have h1 : Real.arctan (Real.sinh (Real.pi * (1 - 2 * (y : ℝ) / (2:ℝ) ^ zoom)))
      * 180 / Real.pi * Real.pi / 180
      = Real.arctan (Real.sinh (Real.pi * (1 - 2 * (y : ℝ) / (2:ℝ) ^ zoom))) := by
    field_simp
  rw [h1, Real.tan_arctan, Real.arsinh_sinh]
  refine Prod.ext ?_ ?_
  · rw [show ((x:ℝ) / (2:ℝ) ^ zoom * 360 - 180 + 180) / 360 * (2:ℝ) ^ zoom
        = ((x:ℤ):ℝ) by field_simp; ring]
    exact Int.floor_intCast x
  · rw [show (1 - Real.pi * (1 - 2 * (y:ℝ) / (2:ℝ) ^ zoom) / Real.pi) / 2 * (2:ℝ) ^ zoom
        = ((y:ℤ):ℝ) by field_simp; ring]
    exact Int.floor_intCast y

/-- Witness for C9 at the concrete tile (1, 2) at zoom 3. -/
theorem claim9_tile_roundtrip_witness :
    (0:ℤ) ≤ 1 ∧ (1:ℤ) < 2 ^ 3 ∧ (0:ℤ) ≤ 2 ∧ (2:ℤ) < 2 ^ 3 ∧
      latLonToTile (tileToLatLon 1 2 3).1 (tileToLatLon 1 2 3).2 3 = (1, 2) :=
  ⟨by norm_num, by norm_num, by norm_num, by norm_num,
    claim9_tile_roundtrip 1 2 3 (by norm_num) (by norm_num) (by norm_num)
      (by norm_num)⟩

structure Cell where
  terrain : TerrainType
  burnState : BurnState
  x : ℤ
  y : ℤ
  windX : ℝ
  windY : ℝ
  humidity : ℝ
  temperature : ℝ
  burnIntensity : ℝ
  burnDuration : ℤ

structure SimulationParams where
  gridCellSize : ℝ
  windSpeed : ℝ
  windDirection : ℝ
  temperature : ℝ
  humidity : ℝ
  rainLikelihood : ℝ

structure BoundingBox where
  north : ℝ
  south : ℝ
  east : ℝ
  west : ℝ

structure GridData where
  cells : List (List Cell)
  width : ℕ
  height : ℕ
  bounds : BoundingBox
  cellSize : ℝ

/-- Truncation toward zero on reals, matching the rounding used by the
JavaScript remainder operator. -/
noncomputable def realTrunc (q : ℝ) : ℝ :=
  if 0 ≤ q then (⌊q⌋ : ℝ) else (⌈q⌉ : ℝ)

/-- The JavaScript remainder `a % b` on exact reals. -/
noncomputable def jsMod (a b : ℝ) : ℝ :=
  a - b * realTrunc (a / b)

/-- JavaScript `Math.atan2 y x`, with values in the interval (-pi, pi]. -/
noncomputable def jsAtan2 (y x : ℝ) : ℝ :=
  if 0 < x then Real.arctan (y / x)
  else if x < 0 ∧ 0 ≤ y then Real.arctan (y / x) + Real.pi
  else if x < 0 then Real.arctan (y / x) - Real.pi
  else if 0 < y then Real.pi / 2
  else if y < 0 then -(Real.pi / 2)
  else 0

/-- Shallow embedding of `calculateWindEffect`: the wind alignment factor
computed from the fire travel direction and the wind direction. -/
noncomputable def calculateWindEffect
    (fromX fromY toX toY windDirection : ℝ) : ℝ :=
  let fireDirection := jsAtan2 (toY - fromY) (toX - fromX) * 180 / Real.pi
  let normalizedFireDir := jsMod (fireDirection + 360) 360
  let normalizedWindDir := jsMod (windDirection + 360) 360
  let angleDiff := |normalizedWindDir - normalizedFireDir|
  let effectiveAngle := min angleDiff (360 - angleDiff)
  0.3 + 0.7 * Real.cos (effectiveAngle * Real.pi / 180)

/-- The fire travel direction from source to target in degrees, exactly as
`calculateWindEffect` derives it; a wind direction equal to this value
points from the burning source cell toward the target cell. -/
noncomputable def fireDirDeg (fromX fromY toX toY : ℝ) : ℝ :=
  jsAtan2 (toY - fromY) (toX - fromX) * 180 / Real.pi

/-- Shallow embedding of `calculateSpreadProbability`: flammability of the
target terrain scaled by temperature, humidity, rain, wind and source
intensity factors, clamped above by 1. -/
noncomputable def calculateSpreadProbability
    (fromCell toCell : Cell) (params : SimulationParams)
    (windEffect : ℝ) : ℝ :=
  let probability : ℝ := (getFlammability toCell.terrain : ℝ)
  let temperatureEffect := max 0 ((params.temperature - 20) / 50)
  let humidityEffect := max 0 ((100 - params.humidity) / 100)
  let rainEffect := max 0 ((100 - params.rainLikelihood) / 100)
  min 1 (probability * (0.5 + 0.5 * temperatureEffect) * humidityEffect
    * rainEffect * (0.8 + 0.4 * windEffect) * (0.5 + 0.5 * fromCell.burnIntensity))

theorem jsAtan2_range (y x : ℝ) :
    -Real.pi < jsAtan2 y x ∧ jsAtan2 y x ≤ Real.pi := by
  have hpi := Real.pi_pos
  have harc : ∀ z : ℝ, -(Real.pi / 2) < Real.arctan z ∧ Real.arctan z < Real.pi / 2 :=
    fun z => ⟨Real.neg_pi_div_two_lt_arctan z, Real.arctan_lt_pi_div_two z⟩
  unfold jsAtan2
  split_ifs with h1 h2 h3 h4 h5
  · obtain ⟨ha, hb⟩ := harc (y / x)
    constructor <;> linarith
  · have hyx : y / x ≤ 0 := div_nonpos_of_nonneg_of_nonpos h2.2 (le_of_lt h2.1)
    have hle : Real.arctan (y / x) ≤ 0 := by
      have := Real.arctan_strictMono.monotone hyx
      simpa [Real.arctan_zero] using this
    obtain ⟨ha, _⟩ := harc (y / x)
    constructor <;> linarith
  · have hy : y < 0 := by
      by_contra hy'
      exact h2 ⟨h3, le_of_not_lt hy'⟩
    have hyx : 0 < y / x := div_pos_iff.mpr (Or.inr ⟨hy, h3⟩)
    have hge : 0 < Real.arctan (y / x) := by
      have := Real.arctan_strictMono hyx
      simpa [Real.arctan_zero] using this
    obtain ⟨_, hb⟩ := harc (y / x)
    constructor <;> linarith
  · constructor <;> linarith
  · constructor <;> linarith
  · constructor <;> linarith

theorem fireDirDeg_range (fx fy tx ty : ℝ) :
    -180 < fireDirDeg fx fy tx ty ∧ fireDirDeg fx fy tx ty ≤ 180 := by
  obtain ⟨h1, h2⟩ := jsAtan2_range (ty - fy) (tx - fx)
  have hpi := Real.pi_pos
  unfold fireDirDeg
  constructor
  · rw [show (-180 : ℝ) = -180 * Real.pi / Real.pi by field_simp, div_lt_div_iff hpi hpi]
    nlinarith
  · rw [div_le_iff hpi]
    nlinarith

theorem jsMod_lt360 (a : ℝ) (h0 : 0 ≤ a) (h1 : a < 360) : jsMod a 360 = a := by
  have hfl : ⌊a / 360⌋ = 0 :=
    Int.floor_eq_zero_iff.mpr
      ⟨div_nonneg h0 (by norm_num), (div_lt_one (by norm_num)).mpr h1⟩
  simp [jsMod, realTrunc, div_nonneg h0 (show (0:ℝ) ≤ 360 by norm_num), hfl]

theorem jsMod_sub360 (a : ℝ) (h0 : 360 ≤ a) (h1 : a < 720) :
    jsMod a 360 = a - 360 := by
  have hfl : ⌊a / 360⌋ = 1 := by
    rw [Int.floor_eq_iff]
    constructor
    · push_cast
      rw [le_div_iff (by norm_num : (0:ℝ) < 360)]
      linarith
    · push_cast
      rw [div_lt_iff (by norm_num : (0:ℝ) < 360)]
      linarith
  have hnn : 0 ≤ a / 360 := div_nonneg (by linarith) (by norm_num)
  simp [jsMod, realTrunc, hnn, hfl]

theorem jsMod_720 : jsMod 720 360 = (0 : ℝ) := by
  have h2 : (720 : ℝ) / 360 = 2 := by norm_num
  have hfl : ⌊(720 : ℝ) / 360⌋ = 2 := by
    rw [h2]
    exact_mod_cast Int.floor_intCast 2
  simp [jsMod, realTrunc, h2, hfl]
  norm_num

theorem windEffect_aligned (fx fy tx ty : ℝ) :
    calculateWindEffect fx fy tx ty (fireDirDeg fx fy tx ty) = 1 := by
  simp only [calculateWindEffect, fireDirDeg, sub_self, abs_zero]
  rw [min_eq_left (by norm_num : (0:ℝ) ≤ 360 - 0)]
  norm_num

theorem reversed_angle (f : ℝ) (h1 : -180 < f) (h2 : f ≤ 180) :
    |jsMod (f + 180 + 360) 360 - jsMod (f + 360) 360| = 180 := by
  have hF : jsMod (f + 360) 360 = if f < 0 then f + 360 else f := by
    split_ifs with h
    · exact jsMod_lt360 _ (by linarith) (by linarith)
    · push_neg at h
      rw [jsMod_sub360 _ (by linarith) (by linarith)]
      ring
  have hW : jsMod (f + 180 + 360) 360 = if f < 180 then f + 180 else 0 := by
    split_ifs with h
    · rw [jsMod_sub360 _ (by linarith) (by linarith)]
      ring
    · have hf : f = 180 := le_antisymm h2 (not_lt.mp h)
      rw [hf, show (180:ℝ) + 180 + 360 = 720 by norm_num, jsMod_720]
  rw [hF, hW]
  split_ifs with ha hb hc
  · rw [show f + 180 - (f + 360) = -180 by ring]
    norm_num
  · rw [show f + 180 - f = 180 by ring]
    norm_num
  · linarith
  · have hf : f = 180 := le_antisymm h2 (not_lt.mp ha)
    rw [hf]
    norm_num

theorem windEffect_reversed (fx fy tx ty : ℝ) :
    calculateWindEffect fx fy tx ty (fireDirDeg fx fy tx ty + 180) = -0.4 := by
  obtain ⟨h1, h2⟩ := fireDirDeg_range fx fy tx ty
  simp only [calculateWindEffect]
  rw [show jsAtan2 (ty - fy) (tx - fx) * 180 / Real.pi = fireDirDeg fx fy tx ty
    from rfl]
  rw [reversed_angle _ h1 h2]
  rw [show (360:ℝ) - 180 = 180 by norm_num, min_self,
    show (180:ℝ) * Real.pi / 180 = Real.pi by ring, Real.cos_pi]
  norm_num

theorem windEffect_le_one (a b c d w : ℝ) :
    calculateWindEffect a b c d w ≤ 1 := by
  simp only [calculateWindEffect]
  have := Real.cos_le_one
    ((min |jsMod (w + 360) 360 - jsMod (jsAtan2 (d - b) (c - a) * 180 / Real.pi + 360) 360|
      (360 - |jsMod (w + 360) 360 -
        jsMod (jsAtan2 (d - b) (c - a) * 180 / Real.pi + 360) 360|)) * Real.pi / 180)
  nlinarith

theorem spreadProb_zero_of_flam_zero (f t : Cell) (p : SimulationParams) (w : ℝ)
    (h : getFlammability t.terrain = 0) :
    calculateSpreadProbability f t p w = 0 := by
  simp only [calculateSpreadProbability, h]
  push_cast
  rw [zero_mul, zero_mul, zero_mul, zero_mul, zero_mul]
  norm_num

theorem spreadProb_windEffect_mono (f t : Cell) (p : SimulationParams)
    (w1 w2 : ℝ)
    (hflam : 0 < getFlammability t.terrain)
    (hhum : p.humidity < 100)
    (hrain : p.rainLikelihood < 100)
    (hint : 0 ≤ f.burnIntensity)
    (hw : w1 < w2)
    (hclamp : calculateSpreadProbability f t p w2 < 1) :
    calculateSpreadProbability f t p w1 < calculateSpreadProbability f t p w2 := by
  simp only [calculateSpreadProbability] at *
  have hP : (0:ℝ) < (getFlammability t.terrain : ℚ) := by exact_mod_cast hflam
  have hT : (0.5:ℝ) ≤ 0.5 + 0.5 * max 0 ((p.temperature - 20) / 50) := by
    have := le_max_left (0:ℝ) ((p.temperature - 20) / 50)
    linarith
  have hH : (0:ℝ) < max 0 ((100 - p.humidity) / 100) := by
    have hx : (0:ℝ) < (100 - p.humidity) / 100 :=
      div_pos (by linarith) (by norm_num)
    exact lt_of_lt_of_le hx (le_max_right _ _)
  have hR : (0:ℝ) < max 0 ((100 - p.rainLikelihood) / 100) := by
    have hx : (0:ℝ) < (100 - p.rainLikelihood) / 100 :=
      div_pos (by linarith) (by norm_num)
    exact lt_of_lt_of_le hx (le_max_right _ _)
  have hI : (0:ℝ) < 0.5 + 0.5 * f.burnIntensity := by linarith
  have hD : (0:ℝ) < (getFlammability t.terrain : ℚ)
      * (0.5 + 0.5 * max 0 ((p.temperature - 20) / 50))
      * max 0 ((100 - p.humidity) / 100)
      * max 0 ((100 - p.rainLikelihood) / 100) := by
    have : (0:ℝ) < 0.5 + 0.5 * max 0 ((p.temperature - 20) / 50) := by linarith
    positivity
  have key : (getFlammability t.terrain : ℚ)
      * (0.5 + 0.5 * max 0 ((p.temperature - 20) / 50))
      * max 0 ((100 - p.humidity) / 100)
      * max 0 ((100 - p.rainLikelihood) / 100)
      * (0.8 + 0.4 * w1) * (0.5 + 0.5 * f.burnIntensity)
      < (getFlammability t.terrain : ℚ)
      * (0.5 + 0.5 * max 0 ((p.temperature - 20) / 50))
      * max 0 ((100 - p.humidity) / 100)
      * max 0 ((100 - p.rainLikelihood) / 100)
      * (0.8 + 0.4 * w2) * (0.5 + 0.5 * f.burnIntensity) := by
    nlinarith [mul_pos hD hI, mul_pos (mul_pos hD hI) (sub_pos.mpr hw)]
  have hA : (getFlammability t.terrain : ℚ)
      * (0.5 + 0.5 * max 0 ((p.temperature - 20) / 50))
      * max 0 ((100 - p.humidity) / 100)
      * max 0 ((100 - p.rainLikelihood) / 100)
      * (0.8 + 0.4 * w2) * (0.5 + 0.5 * f.burnIntensity) < 1 :=
    (min_lt_iff.mp hclamp).resolve_left (lt_irrefl 1)
  calc min 1 ((getFlammability t.terrain : ℚ)
      * (0.5 + 0.5 * max 0 ((p.temperature - 20) / 50))
      * max 0 ((100 - p.humidity) / 100)
      * max 0 ((100 - p.rainLikelihood) / 100)
      * (0.8 + 0.4 * w1) * (0.5 + 0.5 * f.burnIntensity))
      ≤ (getFlammability t.terrain : ℚ)
      * (0.5 + 0.5 * max 0 ((p.temperature - 20) / 50))
      * max 0 ((100 - p.humidity) / 100)
      * max 0 ((100 - p.rainLikelihood) / 100)
      * (0.8 + 0.4 * w1) * (0.5 + 0.5 * f.burnIntensity) := min_le_right _ _
    _ < (getFlammability t.terrain : ℚ)
      * (0.5 + 0.5 * max 0 ((p.temperature - 20) / 50))
      * max 0 ((100 - p.humidity) / 100)
      * max 0 ((100 - p.rainLikelihood) / 100)
      * (0.8 + 0.4 * w2) * (0.5 + 0.5 * f.burnIntensity) := key
    _ = min 1 ((getFlammability t.terrain : ℚ)
      * (0.5 + 0.5 * max 0 ((p.temperature - 20) / 50))
      * max 0 ((100 - p.humidity) / 100)
      * max 0 ((100 - p.rainLikelihood) / 100)
      * (0.8 + 0.4 * w2) * (0.5 + 0.5 * f.burnIntensity)) :=
      (min_eq_right (le_of_lt hA)).symm

/-- Concrete burning source cell used in the C8 counterexample. -/
def c8from : Cell :=
  { terrain := TerrainType.GRASS, burnState := BurnState.BURNING, x := 0, y := 0,
    windX := 0, windY := 0, humidity := 40, temperature := 30,
    burnIntensity := 1, burnDuration := 0 }

/-- Concrete Water target cell used in the C8 counterexample. -/
def c8to : Cell :=
  { terrain := TerrainType.WATER, burnState := BurnState.UNBURNED, x := 1, y := 0,
    windX := 0, windY := 0, humidity := 40, temperature := 30,
    burnIntensity := 0, burnDuration := 0 }

/-- Concrete parameters used in the C8 counterexample and witness. -/
def c8params : SimulationParams :=
  { gridCellSize := 2, windSpeed := 10, windDirection := 0, temperature := 30,
    humidity := 40, rainLikelihood := 0 }

/-- Counterexample to C8 as stated: with a Water target cell, the spread
probability with the wind pointing from the burning neighbor toward the
cell equals the one with the wind reversed (both are 0), so it is not
strictly higher. -/
theorem claim8_counterexample :
    ¬ (calculateSpreadProbability c8from c8to c8params
        (calculateWindEffect (c8from.x : ℝ) (c8from.y : ℝ) (c8to.x : ℝ) (c8to.y : ℝ)
          (fireDirDeg (c8from.x : ℝ) (c8from.y : ℝ) (c8to.x : ℝ) (c8to.y : ℝ) + 180))
      < calculateSpreadProbability c8from c8to c8params
        (calculateWindEffect (c8from.x : ℝ) (c8from.y : ℝ) (c8to.x : ℝ) (c8to.y : ℝ)
          (fireDirDeg (c8from.x : ℝ) (c8from.y : ℝ) (c8to.x : ℝ) (c8to.y : ℝ)))) := by
  have hz : getFlammability c8to.terrain = 0 := by norm_num [c8to, getFlammability]
  rw [spreadProb_zero_of_flam_zero _ _ _ _ hz, spreadProb_zero_of_flam_zero _ _ _ _ hz]
  exact lt_irrefl 0

/-- Claim C8 (amended): provided the target terrain is flammable, humidity
and rain likelihood are below 100, the source intensity is nonnegative, and
the downwind probability is below the clamp at 1, the spread probability
with the wind direction pointing from the burning neighbor toward the cell
is strictly higher than with the wind direction reversed. -/
theorem claim8_wind_strictly_higher (fromCell toCell : Cell)
    (params : SimulationParams)
    (hflam : 0 < getFlammability toCell.terrain)
    (hhum : params.humidity < 100)
    (hrain : params.rainLikelihood < 100)
    (hint : 0 ≤ fromCell.burnIntensity)
    (hclamp : calculateSpreadProbability fromCell toCell params
        (calculateWindEffect (fromCell.x : ℝ) (fromCell.y : ℝ) (toCell.x : ℝ) (toCell.y : ℝ)
          (fireDirDeg (fromCell.x : ℝ) (fromCell.y : ℝ) (toCell.x : ℝ) (toCell.y : ℝ))) < 1) :
    calculateSpreadProbability fromCell toCell params
        (calculateWindEffect (fromCell.x : ℝ) (fromCell.y : ℝ) (toCell.x : ℝ) (toCell.y : ℝ)
          (fireDirDeg (fromCell.x : ℝ) (fromCell.y : ℝ) (toCell.x : ℝ) (toCell.y : ℝ) + 180))
      < calculateSpreadProbability fromCell toCell params
        (calculateWindEffect (fromCell.x : ℝ) (fromCell.y : ℝ) (toCell.x : ℝ) (toCell.y : ℝ)
          (fireDirDeg (fromCell.x : ℝ) (fromCell.y : ℝ) (toCell.x : ℝ) (toCell.y : ℝ))) := by
  rw [windEffect_aligned] at *
  rw [windEffect_reversed]
  exact spreadProb_windEffect_mono fromCell toCell params (-0.4) 1 hflam hhum hrain hint
    (by norm_num) hclamp

/-- Witness grass target cell for the amended C8. -/
def w8to : Cell :=
  { terrain := TerrainType.GRASS, burnState := BurnState.UNBURNED, x := 1, y := 0,
    windX := 0, windY := 0, humidity := 40, temperature := 30,
    burnIntensity := 0, burnDuration := 0 }

/-- Witness for the amended C8 at concrete cells and parameters. -/
theorem claim8_wind_strictly_higher_witness :
    0 < getFlammability w8to.terrain ∧ c8params.humidity < 100 ∧
      c8params.rainLikelihood < 100 ∧ 0 ≤ c8from.burnIntensity ∧
      calculateSpreadProbability c8from w8to c8params
        (calculateWindEffect (c8from.x : ℝ) (c8from.y : ℝ) (w8to.x : ℝ) (w8to.y : ℝ)
          (fireDirDeg (c8from.x : ℝ) (c8from.y : ℝ) (w8to.x : ℝ) (w8to.y : ℝ))) < 1 ∧
      calculateSpreadProbability c8from w8to c8params
        (calculateWindEffect (c8from.x : ℝ) (c8from.y : ℝ) (w8to.x : ℝ) (w8to.y : ℝ)
          (fireDirDeg (c8from.x : ℝ) (c8from.y : ℝ) (w8to.x : ℝ) (w8to.y : ℝ) + 180))
      < calculateSpreadProbability c8from w8to c8params
        (calculateWindEffect (c8from.x : ℝ) (c8from.y : ℝ) (w8to.x : ℝ) (w8to.y : ℝ)
          (fireDirDeg (c8from.x : ℝ) (c8from.y : ℝ) (w8to.x : ℝ) (w8to.y : ℝ))) := by
  have hflam : 0 < getFlammability w8to.terrain := by norm_num [w8to, getFlammability]
  have hhum : c8params.humidity < 100 := by norm_num [c8params]
  have hrain : c8params.rainLikelihood < 100 := by norm_num [c8params]
  have hint : (0:ℝ) ≤ c8from.burnIntensity := by norm_num [c8from]
  have hclamp : calculateSpreadProbability c8from w8to c8params
      (calculateWindEffect (c8from.x : ℝ) (c8from.y : ℝ) (w8to.x : ℝ) (w8to.y : ℝ)
        (fireDirDeg (c8from.x : ℝ) (c8from.y : ℝ) (w8to.x : ℝ) (w8to.y : ℝ))) < 1 := by
    rw [windEffect_aligned]
    norm_num [calculateSpreadProbability, c8from, w8to, c8params, getFlammability,
      max_def]
  exact ⟨hflam, hhum, hrain, hint, hclamp,
    claim8_wind_strictly_higher c8from w8to c8params hflam hhum hrain hint hclamp⟩

/-- The Moore neighborhood offset table, in source order; each entry is
destructured by the source as [dx, dy]. -/
def directions : List (ℤ × ℤ) :=
  [(-1, -1), (-1, 0), (-1, 1), (0, -1), (0, 1), (1, -1), (1, 0), (1, 1)]

/-- The length of the first row (`grid[0].length`); 0 for an empty grid. -/
def rowWidth (cells : List (List Cell)) : ℕ :=
  (cells.headD []).length

/-- Indexed access `cells[y][x]` as an Option. -/
def cellAt (cells : List (List Cell)) (y x : ℕ) : Option Cell :=
  (cells[y]?).bind fun row => row[x]?

/-- Shallow embedding of `getNeighbors`: bounds-clipped Moore neighborhood
in the source enumeration order, reading `grid[y + dy][x + dx]` for each
offset pair destructured as [dx, dy]. -/
def getNeighbors (cells : List (List Cell)) (x y : ℕ) : List Cell :=
  directions.filterMap fun d =>
    let nx := (x : ℤ) + d.1
    let ny := (y : ℤ) + d.2
    if 0 ≤ nx ∧ nx < (rowWidth cells : ℤ) ∧ 0 ≤ ny ∧ ny < (cells.length : ℤ) then
      cellAt cells ny.toNat nx.toNat
    else none

/-- The loop body of the UNBURNED case of `updateCellBurnState`: walk the
neighbor list in order; for each Burning neighbor draw one random value and
compare it with spreadProbability times the 0.1 base rate; on success set
the cell Burning with a random intensity in [0.5, 1.0] and stop.  The
second component is the index of the next unconsumed random draw. -/
noncomputable def spreadFromNeighbors (cell : Cell) (params : SimulationParams)
    (rng : ℕ → ℝ) : List Cell → ℕ → Cell × ℕ
  | [], i => (cell, i)
  | neighbor :: rest, i =>
    if neighbor.burnState = BurnState.BURNING then
      let windEffect := calculateWindEffect (neighbor.x : ℝ) (neighbor.y : ℝ)
        (cell.x : ℝ) (cell.y : ℝ) params.windDirection
      let spreadProb := calculateSpreadProbability neighbor cell params windEffect
      if rng i < spreadProb * 0.1 then
        ({ cell with burnState := BurnState.BURNING,
                     burnIntensity := rng (i + 1) * 0.5 + 0.5,
                     burnDuration := 0 }, i + 2)
      else
        spreadFromNeighbors cell params rng rest (i + 1)
    else
      spreadFromNeighbors cell params rng rest i

/-- Shallow embedding of `updateCellBurnState`. -/
noncomputable def updateCellBurnState (cell : Cell) (neighbors : List Cell)
    (params : SimulationParams) (rng : ℕ → ℝ) (i : ℕ) : Cell × ℕ :=
  match cell.burnState with
  | BurnState.UNBURNED => spreadFromNeighbors cell params rng neighbors i
  | BurnState.BURNING =>
    let newDuration := cell.burnDuration + 1
    let newIntensity := max 0 (cell.burnIntensity - 0.05)
    let burnoutDuration : ℝ := (getFlammability cell.terrain : ℚ) * 20 + 10
    if (newDuration : ℝ) ≥ burnoutDuration ∨ newIntensity ≤ 0.1 then
      ({ cell with burnState := BurnState.BURNED, burnDuration := newDuration,
                   burnIntensity := 0 }, i)
    else
      ({ cell with burnDuration := newDuration, burnIntensity := newIntensity }, i)
  | BurnState.BURNED => (cell, i)

/-- One row of `stepSimulation`: update each cell of the row at column
indices x0, x0+1, ..., reading cells and neighbors from the pre-tick grid
and threading the random draw index. -/
noncomputable def stepRowAux (pre : List (List Cell)) (params : SimulationParams)
    (rng : ℕ → ℝ) (y : ℕ) : List Cell → ℕ → ℕ → List Cell × ℕ
  | [], _x0, i => ([], i)
  | c :: cs, x0, i =>
    let r := updateCellBurnState c (getNeighbors pre x0 y) params rng i
    let rest := stepRowAux pre params rng y cs (x0 + 1) r.2
    (r.1 :: rest.1, rest.2)

/-- All rows of `stepSimulation`, threading the random draw index in
row-major order exactly as the nested source loops consume Math.random. -/
noncomputable def stepGridAux (pre : List (List Cell)) (params : SimulationParams)
    (rng : ℕ → ℝ) : List (List Cell) → ℕ → ℕ → List (List Cell) × ℕ
  | [], _y0, i => ([], i)
  | row :: rows, y0, i =>
    let r := stepRowAux pre params rng y0 row 0 i
    let rest := stepGridAux pre params rng rows (y0 + 1) r.2
    (r.1 :: rest.1, rest.2)

/-- Shallow embedding of `stepSimulation`: every cell's next state is
computed from the pre-tick grid; the loops run over the actual rows, which
coincides with the source's width/height loop bounds on well-formed grids. -/
noncomputable def stepSimulation (gridData : GridData) (params : SimulationParams)
    (rng : ℕ → ℝ) : GridData :=
  { gridData with cells := (stepGridAux gridData.cells params rng gridData.cells 0 0).1 }

/-- Replace the cell at row y, column x, leaving everything else unchanged. -/
def setCell (cells : List (List Cell)) (y x : ℕ) (c : Cell) : List (List Cell) :=
  match cells[y]? with
  | some row => cells.set y (row.set x c)
  | none => cells

/-- Shallow embedding of `igniteCell`.  The impossible in-bounds lookup
failure (only reachable on ragged grids, where the source would fault)
returns the grid unchanged. -/
def igniteCell (gridData : GridData) (x y : ℤ) : GridData :=
  if 0 ≤ x ∧ x < (gridData.width : ℤ) ∧ 0 ≤ y ∧ y < (gridData.height : ℤ) then
    match cellAt gridData.cells y.toNat x.toNat with
    | some cell =>
      if cell.burnState = BurnState.UNBURNED ∧ 0 < getFlammability cell.terrain then
        let ignited : Cell :=
          { cell with burnState := BurnState.BURNING, burnIntensity := 1,
                      burnDuration := 0 }
        { gridData with cells := setCell gridData.cells y.toNat x.toNat ignited }
      else gridData
    | none => gridData
  else gridData

/-- One user-visible operation on a grid: an automaton tick with its
parameters and random stream, or a manual ignition command. -/
inductive SimOp where
  | tick (params : SimulationParams) (rng : ℕ → ℝ)
  | ignite (x y : ℤ)

/-- Apply one operation. -/
noncomputable def applySimOp (op : SimOp) (g : GridData) : GridData :=
  match op with
  | SimOp.tick params rng => stepSimulation g params rng
  | SimOp.ignite x y => igniteCell g x y

/-- Apply a sequence of operations, first element first. -/
noncomputable def applySimOps (ops : List SimOp) (g : GridData) : GridData :=
  ops.foldl (fun acc op => applySimOp op acc) g

/-- Numeric rank of a burn state in the forward order
Unburned, Burning, Burned. -/
def stateRank : BurnState → ℕ
  | BurnState.UNBURNED => 0
  | BurnState.BURNING => 1
  | BurnState.BURNED => 2

/-- The Grid invariant: the rows list has exactly `height` rows, each of
length `width`. -/
def wellFormed (g : GridData) : Prop :=
  g.cells.length = g.height ∧ ∀ row ∈ g.cells, row.length = g.width

/-- Modelled from the spec: the neighbor positions named by claim C3,
taking the offset table entries as (dy, dx) pairs, bounds-clipped, in
order. -/
def specNeighborPositionsDyDx (x y : ℤ) (w h : ℕ) : List (ℤ × ℤ) :=
  directions.filterMap fun d =>
    let nx := x + d.2
    let ny := y + d.1
    if 0 ≤ nx ∧ nx < (w : ℤ) ∧ 0 ≤ ny ∧ ny < (h : ℤ) then some (nx, ny) else none

/-- The neighbor positions actually visited by the source: the offset table
entries taken as (dx, dy) pairs, bounds-clipped, in order. -/
def specNeighborPositionsDxDy (x y : ℤ) (w h : ℕ) : List (ℤ × ℤ) :=
  directions.filterMap fun d =>
    let nx := x + d.1
    let ny := y + d.2
    if 0 ≤ nx ∧ nx < (w : ℤ) ∧ 0 ≤ ny ∧ ny < (h : ℤ) then some (nx, ny) else none

theorem stepRowAux_get (pre : List (List Cell)) (params : SimulationParams)
    (rng : ℕ → ℝ) (y : ℕ) :
    ∀ (row : List Cell) (x0 i k : ℕ) (c : Cell), row[k]? = some c →
      ∃ j, (stepRowAux pre params rng y row x0 i).1[k]?
        = some (updateCellBurnState c (getNeighbors pre (x0 + k) y) params rng j).1 := by
  intro row
  induction row with
  | nil =>
    intro x0 i k c hc
    simp at hc
  | cons hd tl ih =>
    intro x0 i k c hc
    cases k with
    | zero =>
      simp at hc
      subst hc
      exact ⟨i, by simp [stepRowAux]⟩
    | succ k' =>
      simp at hc
      obtain ⟨j, hj⟩ := ih (x0 + 1)
        ((updateCellBurnState hd (getNeighbors pre x0 y) params rng i).2) k' c hc
      refine ⟨j, ?_⟩
      simp only [stepRowAux, List.getElem?_cons_succ]
      rw [show x0 + (k' + 1) = x0 + 1 + k' by omega]
      exact hj

theorem stepGridAux_get (pre : List (List Cell)) (params : SimulationParams)
    (rng : ℕ → ℝ) :
    ∀ (rows : List (List Cell)) (y0 i k : ℕ) (r : List Cell), rows[k]? = some r →
      ∃ j, (stepGridAux pre params rng rows y0 i).1[k]?
        = some (stepRowAux pre params rng (y0 + k) r 0 j).1 := by
  intro rows
  induction rows with
  | nil =>
    intro y0 i k r hr
    simp at hr
  | cons hd tl ih =>
    intro y0 i k r hr
    cases k with
    | zero =>
      simp at hr
      subst hr
      exact ⟨i, by simp [stepGridAux]⟩
    | succ k' =>
      simp at hr
      obtain ⟨j, hj⟩ := ih (y0 + 1)
        ((stepRowAux pre params rng y0 hd 0 i).2) k' r hr
      refine ⟨j, ?_⟩
      simp only [stepGridAux, List.getElem?_cons_succ]
      rw [show y0 + (k' + 1) = y0 + 1 + k' by omega]
      exact hj

/-- Claim C1: the tick computes every cell's next state from the pre-tick
grid alone: for every well-formed grid and position in range, the result
cell at (x, y) is the per-cell transition function applied to the pre-tick
cell at (x, y) and its pre-tick Moore neighbors (at some offset of the
random stream). -/
theorem claim1_simultaneous_update (g : GridData) (params : SimulationParams)
    (rng : ℕ → ℝ) (hwf : wellFormed g) (x y : ℕ)
    (hx : x < g.width) (hy : y < g.height) :
    ∃ i c, cellAt g.cells y x = some c ∧
      cellAt (stepSimulation g params rng).cells y x
        = some (updateCellBurnState c (getNeighbors g.cells x y) params rng i).1 := by
  obtain ⟨hlen, hrows⟩ := hwf
  have hylen : y < g.cells.length := by
    rw [hlen]
    exact hy
  have hrow : g.cells[y]? = some g.cells[y] := List.getElem?_eq_getElem hylen
  have hxrow : x < (g.cells[y]).length := by
    rw [hrows _ (List.getElem_mem hylen)]
    exact hx
  have hc : (g.cells[y])[x]? = some ((g.cells[y])[x]) :=
    List.getElem?_eq_getElem hxrow
  obtain ⟨j, hj⟩ := stepGridAux_get g.cells params rng g.cells 0 0 y _ hrow
  obtain ⟨j2, hj2⟩ := stepRowAux_get g.cells params rng y _ 0 j x _ hc
  refine ⟨j2, (g.cells[y])[x], ?_, ?_⟩
  · simp [cellAt, hrow, hc]
  · simp only [stepSimulation, cellAt]
    rw [show (0:ℕ) + y = y by omega] at hj
    rw [hj]
    simp only [Option.some_bind]
    rw [show (0:ℕ) + x = x by omega] at hj2
    exact hj2

/-- Fixture: the `g1` bounding box. -/
def bbox0 : BoundingBox := { north := 1, south := 0, east := 1, west := 0 }

/-- Fixture: an unburned grass cell at the origin. -/
def g1cell : Cell :=
  { terrain := TerrainType.GRASS, burnState := BurnState.UNBURNED, x := 0, y := 0,
    windX := 0, windY := 0, humidity := 40, temperature := 30,
    burnIntensity := 0, burnDuration := 0 }

/-- Fixture: a 1-by-1 grid holding one cell. -/
def g1x1 (c : Cell) : GridData :=
  { cells := [[c]], width := 1, height := 1, bounds := bbox0, cellSize := 1 }

/-- Fixture: the 1-by-1 grass grid. -/
def g1 : GridData := g1x1 g1cell

/-- Fixture: a constant random stream. -/
noncomputable def rng0 : ℕ → ℝ := fun _ => 1 / 2

/-- Witness for C1 on the 1-by-1 grass grid. -/
theorem claim1_simultaneous_update_witness :
    wellFormed g1 ∧ 0 < g1.width ∧ 0 < g1.height ∧
      (∃ i c, cellAt g1.cells 0 0 = some c ∧
        cellAt (stepSimulation g1 c8params rng0).cells 0 0
          = some (updateCellBurnState c (getNeighbors g1.cells 0 0) c8params rng0 i).1) := by
  have hwf : wellFormed g1 := by
    constructor
    · rfl
    · intro row hr
      simp [g1, g1x1] at hr
      subst hr
      rfl
  exact ⟨hwf, by norm_num [g1, g1x1], by norm_num [g1, g1x1],
    claim1_simultaneous_update g1 c8params rng0 hwf 0 0
      (by norm_num [g1, g1x1]) (by norm_num [g1, g1x1])⟩

theorem updateCell_burning_continue (c : Cell) (ns : List Cell)
    (params : SimulationParams) (rng : ℕ → ℝ) (i : ℕ)
    (hb : c.burnState = BurnState.BURNING)
    (hno : ¬ (((c.burnDuration + 1 : ℤ) : ℝ) ≥ (getFlammability c.terrain : ℚ) * 20 + 10
        ∨ max 0 (c.burnIntensity - 0.05) ≤ 0.1)) :
    updateCellBurnState c ns params rng i
      = ({ c with burnDuration := c.burnDuration + 1,
                  burnIntensity := max 0 (c.burnIntensity - 0.05) }, i) := by
  unfold updateCellBurnState
  rw [hb]
  simp only []
  rw [if_neg hno]

theorem updateCell_burning_burnout (c : Cell) (ns : List Cell)
    (params : SimulationParams) (rng : ℕ → ℝ) (i : ℕ)
    (hb : c.burnState = BurnState.BURNING)
    (hyes : ((c.burnDuration + 1 : ℤ) : ℝ) ≥ (getFlammability c.terrain : ℚ) * 20 + 10
        ∨ max 0 (c.burnIntensity - 0.05) ≤ 0.1) :
    updateCellBurnState c ns params rng i
      = ({ c with burnState := BurnState.BURNED,
                  burnDuration := c.burnDuration + 1,
                  burnIntensity := 0 }, i) := by
  unfold updateCellBurnState
  rw [hb]
  simp only []
  rw [if_pos hyes]

theorem step_g1x1 (c : Cell) (params : SimulationParams) (rng : ℕ → ℝ) :
    stepSimulation (g1x1 c) params rng = g1x1 (updateCellBurnState c [] params rng 0).1 :=
  rfl

theorem forest_scenario_inv (c0 : Cell) (params : SimulationParams) (rng : ℕ → ℝ)
    (hfl : getFlammability c0.terrain = 0.8)
    (hb : c0.burnState = BurnState.BURNING)
    (hi : c0.burnIntensity = 1) (hd : c0.burnDuration = 0) :
    ∀ k, k ≤ 17 →
      ∃ ck, (fun g => stepSimulation g params rng)^[k] (g1x1 c0) = g1x1 ck ∧
        ck.terrain = c0.terrain ∧ ck.burnState = BurnState.BURNING ∧
        ck.burnIntensity = 1 - 0.05 * k ∧ ck.burnDuration = k := by
  intro k
  induction k with
  | zero =>
    intro _
    exact ⟨c0, by simp, rfl, hb, by rw [hi]; norm_num, by rw [hd]; norm_num⟩
  | succ n ih =>
    intro hk
    obtain ⟨cn, hcn, hterr, hbs, hint, hdur⟩ := ih (by omega)
    have hn16 : (n : ℝ) ≤ 16 := by exact_mod_cast (by omega : n ≤ 16)
    have hcond : ¬ (((cn.burnDuration + 1 : ℤ) : ℝ)
          ≥ (getFlammability cn.terrain : ℚ) * 20 + 10
        ∨ max 0 (cn.burnIntensity - 0.05) ≤ 0.1) := by
      push_neg
      constructor
      · rw [hdur, hterr, hfl]
        push_cast
        linarith
      · rw [hint]
        have hv : (0.1:ℝ) < 1 - 0.05 * n - 0.05 := by linarith
        exact lt_of_lt_of_le hv (le_max_right _ _)
    refine ⟨{ cn with burnDuration := cn.burnDuration + 1, burnIntensity := max 0 (cn.burnIntensity - 0.05) }, ?_, ?_, ?_, ?_, ?_⟩
    · rw [Function.iterate_succ_apply', hcn, step_g1x1,
        updateCell_burning_continue cn [] params rng 0 hbs hcond]
    · exact hterr
    · exact hbs
    · show max 0 (cn.burnIntensity - 0.05) = 1 - 0.05 * ((n + 1 : ℕ) : ℝ)
      rw [hint, max_eq_right (by linarith)]
      push_cast
      ring
    · show cn.burnDuration + 1 = ((n + 1 : ℕ) : ℤ)
      rw [hdur]
      push_cast
      ring

/-- Claim C4: one tick increments a Burning cell's duration, decays its
intensity by 0.05 floored at 0, and moves it to Burned with intensity 0
exactly when the new duration reaches flammability x 20 + 10 or the new
intensity drops to at most 0.1; moreover a cell with flammability 0.8,
intensity 1 and duration 0 on a 1-by-1 grid burns out at tick 18, inside
the claimed 18-26 window. -/
theorem claim4_burning_rules :
    (∀ (c : Cell) (ns : List Cell) (params : SimulationParams) (rng : ℕ → ℝ) (i : ℕ),
      c.burnState = BurnState.BURNING →
      (updateCellBurnState c ns params rng i).1.burnDuration = c.burnDuration + 1 ∧
      (updateCellBurnState c ns params rng i).1.burnIntensity
        = (if ((c.burnDuration + 1 : ℤ) : ℝ) ≥ (getFlammability c.terrain : ℚ) * 20 + 10
              ∨ max 0 (c.burnIntensity - 0.05) ≤ 0.1 then 0
           else max 0 (c.burnIntensity - 0.05)) ∧
      ((updateCellBurnState c ns params rng i).1.burnState = BurnState.BURNED ↔
        (((c.burnDuration + 1 : ℤ) : ℝ) ≥ (getFlammability c.terrain : ℚ) * 20 + 10
          ∨ max 0 (c.burnIntensity - 0.05) ≤ 0.1))) ∧
    (∀ (c0 : Cell) (params : SimulationParams) (rng : ℕ → ℝ),
      getFlammability c0.terrain = 0.8 → c0.burnState = BurnState.BURNING →
      c0.burnIntensity = 1 → c0.burnDuration = 0 →
      ∃ k, 18 ≤ k ∧ k ≤ 26 ∧
        (∃ cp, (fun g => stepSimulation g params rng)^[k - 1] (g1x1 c0) = g1x1 cp ∧
          cp.burnState = BurnState.BURNING) ∧
        (∃ ck, (fun g => stepSimulation g params rng)^[k] (g1x1 c0) = g1x1 ck ∧
          ck.burnState = BurnState.BURNED ∧ ck.burnIntensity = 0)) := by
  constructor
  · intro c ns params rng i hb
    by_cases hcond : ((c.burnDuration + 1 : ℤ) : ℝ)
          ≥ (getFlammability c.terrain : ℚ) * 20 + 10
        ∨ max 0 (c.burnIntensity - 0.05) ≤ 0.1
    · rw [updateCell_burning_burnout c ns params rng i hb hcond]
      exact ⟨rfl, by rw [if_pos hcond], iff_of_true rfl hcond⟩
    · rw [updateCell_burning_continue c ns params rng i hb hcond]
      refine ⟨rfl, by rw [if_neg hcond], iff_of_false ?_ hcond⟩
      simp [hb]
  · intro c0 params rng hfl hb hi hd
    obtain ⟨c17, h17, hterr, hbs, hint, hdur⟩ :=
      forest_scenario_inv c0 params rng hfl hb hi hd 17 (le_refl _)
    refine ⟨18, by norm_num, by norm_num,
      ⟨c17, by rw [show (18:ℕ) - 1 = 17 from rfl]; exact h17, hbs⟩, ?_⟩
    have hcond : ((c17.burnDuration + 1 : ℤ) : ℝ)
          ≥ (getFlammability c17.terrain : ℚ) * 20 + 10
        ∨ max 0 (c17.burnIntensity - 0.05) ≤ 0.1 := by
      right
      rw [hint]
      push_cast
      rw [max_le_iff]
      constructor <;> norm_num
    have h18 : (fun g => stepSimulation g params rng)^[18] (g1x1 c0)
        = g1x1 ({ c17 with burnState := BurnState.BURNED, burnDuration := c17.burnDuration + 1, burnIntensity := 0 }) := by
      rw [show (18:ℕ) = 17 + 1 from rfl, Function.iterate_succ_apply', h17, step_g1x1,
        updateCell_burning_burnout c17 [] params rng 0 hbs hcond]
    exact ⟨_, h18, rfl, rfl⟩

/-- Fixture: a freshly ignited forest cell. -/
def forestCell : Cell :=
  { terrain := TerrainType.FOREST, burnState := BurnState.BURNING, x := 0, y := 0,
    windX := 0, windY := 0, humidity := 40, temperature := 30,
    burnIntensity := 1, burnDuration := 0 }

/-- Witness for C4 on a concrete burning forest cell. -/
theorem claim4_burning_rules_witness :
    forestCell.burnState = BurnState.BURNING ∧
    getFlammability forestCell.terrain = 0.8 ∧
    (updateCellBurnState forestCell [] c8params rng0 0).1.burnDuration
      = forestCell.burnDuration + 1 ∧
    (∃ k, 18 ≤ k ∧ k ≤ 26 ∧
      (∃ cp, (fun g => stepSimulation g c8params rng0)^[k - 1] (g1x1 forestCell)
          = g1x1 cp ∧ cp.burnState = BurnState.BURNING) ∧
      (∃ ck, (fun g => stepSimulation g c8params rng0)^[k] (g1x1 forestCell)
          = g1x1 ck ∧ ck.burnState = BurnState.BURNED ∧ ck.burnIntensity = 0)) :=
  ⟨rfl, by norm_num [forestCell, getFlammability],
    (claim4_burning_rules.1 forestCell [] c8params rng0 0 rfl).1,
    claim4_burning_rules.2 forestCell c8params rng0
      (by norm_num [forestCell, getFlammability]) rfl rfl rfl⟩

/-- Claim C6: ignite on an in-bounds Unburned cell with positive
flammability sets exactly that cell Burning with intensity 1 and duration
0, leaving grid metadata and all other cells unchanged; out-of-bounds
requests, non-Unburned targets and zero-flammability targets leave the
grid unchanged. -/
theorem claim6_ignite (g : GridData) (x y : ℤ) :
    (∀ c, (0 ≤ x ∧ x < (g.width : ℤ) ∧ 0 ≤ y ∧ y < (g.height : ℤ)) →
      cellAt g.cells y.toNat x.toNat = some c →
      c.burnState = BurnState.UNBURNED → 0 < getFlammability c.terrain →
      (igniteCell g x y).width = g.width ∧ (igniteCell g x y).height = g.height ∧
      (igniteCell g x y).bounds = g.bounds ∧ (igniteCell g x y).cellSize = g.cellSize ∧
      cellAt (igniteCell g x y).cells y.toNat x.toNat
        = some { c with burnState := BurnState.BURNING, burnIntensity := 1, burnDuration := 0 } ∧
      (∀ y' x' : ℕ, y' ≠ y.toNat ∨ x' ≠ x.toNat →
        cellAt (igniteCell g x y).cells y' x' = cellAt g.cells y' x')) ∧
    (¬ (0 ≤ x ∧ x < (g.width : ℤ) ∧ 0 ≤ y ∧ y < (g.height : ℤ)) →
      igniteCell g x y = g) ∧
    (∀ c, cellAt g.cells y.toNat x.toNat = some c →
      (c.burnState ≠ BurnState.UNBURNED ∨ getFlammability c.terrain = 0) →
      igniteCell g x y = g) := by
  refine ⟨?_, ?_, ?_⟩
  · intro c hb hc hunb hflam
    rcases hrow : g.cells[y.toNat]? with _ | row
    · rw [cellAt, hrow] at hc
      simp at hc
    have hcx : row[x.toNat]? = some c := by
      rw [cellAt, hrow] at hc
      simpa using hc
    obtain ⟨hylt, -⟩ := List.getElem?_eq_some.mp hrow
    obtain ⟨hxlt, -⟩ := List.getElem?_eq_some.mp hcx
    have hig : igniteCell g x y = { g with cells := setCell g.cells y.toNat x.toNat { c with burnState := BurnState.BURNING, burnIntensity := 1, burnDuration := 0 } } := by
      unfold igniteCell
      rw [if_pos hb, hc]
      simp only []
      rw [if_pos ⟨hunb, hflam⟩]
    rw [hig]
    refine ⟨rfl, rfl, rfl, rfl, ?_, ?_⟩
    · show cellAt (setCell g.cells y.toNat x.toNat _) y.toNat x.toNat = _
      unfold setCell
      rw [hrow]
      simp only []
      rw [cellAt, List.getElem?_set_self hylt]
      simp only [Option.some_bind]
      rw [List.getElem?_set_self hxlt]
    · intro y' x' hne
      show cellAt (setCell g.cells y.toNat x.toNat _) y' x' = cellAt g.cells y' x'
      unfold setCell
      rw [hrow]
      simp only []
      rcases eq_or_ne y' y.toNat with hy' | hy'
      · subst hy'
        rcases hne with hne | hne
        · exact absurd rfl hne
        · rw [cellAt, List.getElem?_set_self hylt, Option.some_bind, cellAt, hrow,
            Option.some_bind, List.getElem?_set_ne (Ne.symm hne)]
      · rw [cellAt, List.getElem?_set_ne (Ne.symm hy'), cellAt]
  · intro hnb
    unfold igniteCell
    rw [if_neg hnb]
  · intro c hc hfail
    by_cases hb : 0 ≤ x ∧ x < (g.width : ℤ) ∧ 0 ≤ y ∧ y < (g.height : ℤ)
    · unfold igniteCell
      rw [if_pos hb, hc]
      simp only []
      rw [if_neg]
      rintro ⟨h1, h2⟩
      rcases hfail with hfail | hfail
      · exact hfail h1
      · rw [hfail] at h2
        exact lt_irrefl 0 h2
    · unfold igniteCell
      rw [if_neg hb]

/-- Fixture: an unburned water cell. -/
def waterCell : Cell :=
  { terrain := TerrainType.WATER, burnState := BurnState.UNBURNED, x := 0, y := 0,
    windX := 0, windY := 0, humidity := 40, temperature := 30,
    burnIntensity := 0, burnDuration := 0 }

/-- Fixture: the 1-by-1 water grid. -/
def gW : GridData := g1x1 waterCell

/-- Witness for C6: successful ignition on grass, out-of-bounds no-op, and
water no-op, each on a concrete 1-by-1 grid. -/
theorem claim6_ignite_witness :
    cellAt g1.cells (0:ℤ).toNat (0:ℤ).toNat = some g1cell ∧
    g1cell.burnState = BurnState.UNBURNED ∧
    0 < getFlammability g1cell.terrain ∧
    cellAt (igniteCell g1 0 0).cells (0:ℤ).toNat (0:ℤ).toNat
      = some { g1cell with burnState := BurnState.BURNING, burnIntensity := 1, burnDuration := 0 } ∧
    igniteCell g1 5 7 = g1 ∧
    cellAt gW.cells (0:ℤ).toNat (0:ℤ).toNat = some waterCell ∧
    getFlammability waterCell.terrain = 0 ∧
    igniteCell gW 0 0 = gW := by
  have hb : (0:ℤ) ≤ 0 ∧ (0:ℤ) < (g1.width : ℤ) ∧ (0:ℤ) ≤ 0 ∧ (0:ℤ) < (g1.height : ℤ) := by
    norm_num [g1, g1x1]
  have hflam : 0 < getFlammability g1cell.terrain := by
    norm_num [g1cell, getFlammability]
  refine ⟨rfl, rfl, hflam, ?_, ?_, rfl, by norm_num [waterCell, getFlammability], ?_⟩
  · exact ((claim6_ignite g1 0 0).1 g1cell hb rfl rfl hflam).2.2.2.2.1
  · refine (claim6_ignite g1 5 7).2.1 ?_
    rintro ⟨-, h5, -⟩
    norm_num [g1, g1x1] at h5
  · exact (claim6_ignite gW 0 0).2.2 waterCell rfl
      (Or.inr (by norm_num [waterCell, getFlammability]))

theorem spreadFromNeighbors_frame (cell : Cell) (params : SimulationParams)
    (rng : ℕ → ℝ) :
    ∀ (ns : List Cell) (i : ℕ),
      (spreadFromNeighbors cell params rng ns i).1.terrain = cell.terrain ∧
      (spreadFromNeighbors cell params rng ns i).1.x = cell.x ∧
      (spreadFromNeighbors cell params rng ns i).1.y = cell.y ∧
      (spreadFromNeighbors cell params rng ns i).1.windX = cell.windX ∧
      (spreadFromNeighbors cell params rng ns i).1.windY = cell.windY ∧
      (spreadFromNeighbors cell params rng ns i).1.humidity = cell.humidity ∧
      (spreadFromNeighbors cell params rng ns i).1.temperature = cell.temperature := by
  intro ns
  induction ns with
  | nil =>
    intro i
    exact ⟨rfl, rfl, rfl, rfl, rfl, rfl, rfl⟩
  | cons n rest ih =>
    intro i
    unfold spreadFromNeighbors
    simp only []
    split_ifs with h1 h2
    · exact ⟨rfl, rfl, rfl, rfl, rfl, rfl, rfl⟩
    · exact ih (i + 1)
    · exact ih i

theorem updateCellBurnState_frame (cell : Cell) (ns : List Cell)
    (params : SimulationParams) (rng : ℕ → ℝ) (i : ℕ) :
    (updateCellBurnState cell ns params rng i).1.terrain = cell.terrain ∧
    (updateCellBurnState cell ns params rng i).1.x = cell.x ∧
    (updateCellBurnState cell ns params rng i).1.y = cell.y ∧
    (updateCellBurnState cell ns params rng i).1.windX = cell.windX ∧
    (updateCellBurnState cell ns params rng i).1.windY = cell.windY ∧
    (updateCellBurnState cell ns params rng i).1.humidity = cell.humidity ∧
    (updateCellBurnState cell ns params rng i).1.temperature = cell.temperature := by
  unfold updateCellBurnState
  cases hb : cell.burnState
  · exact spreadFromNeighbors_frame cell params rng ns i
  · simp only []
    split_ifs with h1
    · exact ⟨rfl, rfl, rfl, rfl, rfl, rfl, rfl⟩
    · exact ⟨rfl, rfl, rfl, rfl, rfl, rfl, rfl⟩
  · exact ⟨rfl, rfl, rfl, rfl, rfl, rfl, rfl⟩

/-- Claim C10: the tick preserves grid metadata (width, height, bounds,
cellSize) and, for every cell present in the pre-tick grid, the post-tick
cell at the same position has the same terrain, coordinates, wind
components, humidity and temperature; only the burn fields may change. -/
theorem claim10_tick_frame (g : GridData) (params : SimulationParams)
    (rng : ℕ → ℝ) :
    (stepSimulation g params rng).width = g.width ∧
    (stepSimulation g params rng).height = g.height ∧
    (stepSimulation g params rng).bounds = g.bounds ∧
    (stepSimulation g params rng).cellSize = g.cellSize ∧
    (∀ (y x : ℕ) (c : Cell), cellAt g.cells y x = some c →
      ∃ c', cellAt (stepSimulation g params rng).cells y x = some c' ∧
        c'.terrain = c.terrain ∧ c'.x = c.x ∧ c'.y = c.y ∧
        c'.windX = c.windX ∧ c'.windY = c.windY ∧
        c'.humidity = c.humidity ∧ c'.temperature = c.temperature) := by
  refine ⟨rfl, rfl, rfl, rfl, ?_⟩
  intro y x c hc
  rcases hrow : g.cells[y]? with _ | row
  · rw [cellAt, hrow] at hc
    simp at hc
  have hcx : row[x]? = some c := by
    rw [cellAt, hrow] at hc
    simpa using hc
  obtain ⟨j, hj⟩ := stepGridAux_get g.cells params rng g.cells 0 0 y row hrow
  obtain ⟨j2, hj2⟩ := stepRowAux_get g.cells params rng y row 0 j x c hcx
  rw [show (0:ℕ) + y = y by omega] at hj
  rw [show (0:ℕ) + x = x by omega] at hj2
  refine ⟨(updateCellBurnState c (getNeighbors g.cells x y) params rng j2).1, ?_, ?_⟩
  · simp only [stepSimulation, cellAt]
    rw [hj, Option.some_bind]
    exact hj2
  · exact updateCellBurnState_frame c (getNeighbors g.cells x y) params rng j2

/-- Witness for C10 on the 1-by-1 grass grid. -/
theorem claim10_tick_frame_witness :
    cellAt g1.cells 0 0 = some g1cell ∧
    (stepSimulation g1 c8params rng0).width = g1.width ∧
    (∃ c', cellAt (stepSimulation g1 c8params rng0).cells 0 0 = some c' ∧
      c'.terrain = g1cell.terrain ∧ c'.x = g1cell.x ∧ c'.y = g1cell.y ∧
      c'.windX = g1cell.windX ∧ c'.windY = g1cell.windY ∧
      c'.humidity = g1cell.humidity ∧ c'.temperature = g1cell.temperature) :=
  ⟨rfl, (claim10_tick_frame g1 c8params rng0).1,
    (claim10_tick_frame g1 c8params rng0).2.2.2.2 0 0 g1cell rfl⟩

theorem updateCell_mono (cell : Cell) (ns : List Cell) (params : SimulationParams)
    (rng : ℕ → ℝ) (i : ℕ) :
    stateRank cell.burnState
      ≤ stateRank (updateCellBurnState cell ns params rng i).1.burnState ∧
    (cell.burnState = BurnState.BURNED
      → (updateCellBurnState cell ns params rng i).1 = cell) := by
  unfold updateCellBurnState
  cases hb : cell.burnState
  · exact ⟨Nat.zero_le _, fun h => BurnState.noConfusion h⟩
  · simp only []
    split_ifs with h1
    · exact ⟨Nat.le_succ 1, fun h => h.elim⟩
    · exact ⟨le_refl _, fun h => h.elim⟩
  · refine ⟨?_, fun _ => rfl⟩
    show stateRank BurnState.BURNED ≤ stateRank cell.burnState
    rw [hb]

theorem cellAt_setCell_ne (cells : List (List Cell)) (y x : ℕ) (nc : Cell)
    (y' x' : ℕ) (h : y' ≠ y ∨ x' ≠ x) :
    cellAt (setCell cells y x nc) y' x' = cellAt cells y' x' := by
  unfold setCell
  rcases hrow : cells[y]? with _ | row
  · rfl
  · rcases eq_or_ne y' y with rfl | hy
    · rcases h with h | h
      · exact absurd rfl h
      · rw [cellAt, List.getElem?_set_self (List.getElem?_eq_some.mp hrow).1,
          Option.some_bind, cellAt, hrow, Option.some_bind,
          List.getElem?_set_ne (Ne.symm h)]
    · rw [cellAt, List.getElem?_set_ne (Ne.symm hy), cellAt]

theorem tick_mono (g : GridData) (params : SimulationParams) (rng : ℕ → ℝ)
    (y x : ℕ) (c : Cell) (hc : cellAt g.cells y x = some c) :
    ∃ c', cellAt (stepSimulation g params rng).cells y x = some c' ∧
      stateRank c.burnState ≤ stateRank c'.burnState ∧
      (c.burnState = BurnState.BURNED → c' = c) := by
  rcases hrow : g.cells[y]? with _ | row
  · rw [cellAt, hrow] at hc
    simp at hc
  have hcx : row[x]? = some c := by
    rw [cellAt, hrow] at hc
    simpa using hc
  obtain ⟨j, hj⟩ := stepGridAux_get g.cells params rng g.cells 0 0 y row hrow
  obtain ⟨j2, hj2⟩ := stepRowAux_get g.cells params rng y row 0 j x c hcx
  rw [show (0:ℕ) + y = y by omega] at hj
  rw [show (0:ℕ) + x = x by omega] at hj2
  obtain ⟨hrank, hburned⟩ := updateCell_mono c (getNeighbors g.cells x y) params rng j2
  refine ⟨(updateCellBurnState c (getNeighbors g.cells x y) params rng j2).1, ?_, hrank, hburned⟩
  simp only [stepSimulation, cellAt]
  rw [hj, Option.some_bind]
  exact hj2

theorem cellAt_setCell_self (cells : List (List Cell)) (y x : ℕ) (nc : Cell)
    (row : List Cell) (hrow : cells[y]? = some row) (hx : x < row.length) :
    cellAt (setCell cells y x nc) y x = some nc := by
  unfold setCell
  rw [hrow]
  simp only []
  rw [cellAt, List.getElem?_set_self (List.getElem?_eq_some.mp hrow).1,
    Option.some_bind, List.getElem?_set_self hx]

theorem ignite_mono (g : GridData) (a b : ℤ) (y x : ℕ) (c : Cell)
    (hc : cellAt g.cells y x = some c) :
    ∃ c', cellAt (igniteCell g a b).cells y x = some c' ∧
      stateRank c.burnState ≤ stateRank c'.burnState ∧
      (c.burnState = BurnState.BURNED → c' = c) := by
  unfold igniteCell
  split_ifs with hbounds
  · rcases hcell : cellAt g.cells b.toNat a.toNat with _ | cell
    · exact ⟨c, hc, le_refl _, fun _ => rfl⟩
    · simp only []
      split_ifs with hguard
      · rcases hrow : g.cells[b.toNat]? with _ | row
        · rw [cellAt, hrow] at hcell
          simp at hcell
        have hcx : row[a.toNat]? = some cell := by
          rw [cellAt, hrow] at hcell
          simpa using hcell
        rcases eq_or_ne y b.toNat with rfl | hy
        · rcases eq_or_ne x a.toNat with rfl | hx
          · have hcc : c = cell := Option.some.inj (hc.symm.trans hcell)
            refine ⟨_, cellAt_setCell_self g.cells _ _ _ row hrow
              (List.getElem?_eq_some.mp hcx).1, ?_, ?_⟩
            · rw [hcc, hguard.1]
              exact Nat.zero_le _
            · intro h
              rw [hcc, hguard.1] at h
              exact BurnState.noConfusion h
          · refine ⟨c, ?_, le_refl _, fun _ => rfl⟩
            rw [cellAt_setCell_ne g.cells b.toNat a.toNat _ _ _ (Or.inr hx)]
            exact hc
        · refine ⟨c, ?_, le_refl _, fun _ => rfl⟩
          rw [cellAt_setCell_ne g.cells b.toNat a.toNat _ _ _ (Or.inl hy)]
          exact hc
      · exact ⟨c, hc, le_refl _, fun _ => rfl⟩
  · exact ⟨c, hc, le_refl _, fun _ => rfl⟩

theorem applySimOp_mono (op : SimOp) (g : GridData) (y x : ℕ) (c : Cell)
    (hc : cellAt g.cells y x = some c) :
    ∃ c', cellAt (applySimOp op g).cells y x = some c' ∧
      stateRank c.burnState ≤ stateRank c'.burnState ∧
      (c.burnState = BurnState.BURNED → c' = c) := by
  cases op with
  | tick params rng => exact tick_mono g params rng y x c hc
  | ignite a b => exact ignite_mono g a b y x c hc

/-- Claim C5: across any sequence of tick and ignite operations, every
cell's burn state only moves forward in the order Unburned, Burning,
Burned, and a Burned cell is never changed again by any operation. -/
theorem claim5_monotone (ops : List SimOp) (g : GridData) (y x : ℕ) (c : Cell)
    (hc : cellAt g.cells y x = some c) :
    ∃ c', cellAt (applySimOps ops g).cells y x = some c' ∧
      stateRank c.burnState ≤ stateRank c'.burnState ∧
      (c.burnState = BurnState.BURNED → c' = c) := by
  induction ops generalizing g c with
  | nil => exact ⟨c, hc, le_refl _, fun _ => rfl⟩
  | cons op rest ih =>
    obtain ⟨c1, hc1, hrank1, hburn1⟩ := applySimOp_mono op g y x c hc
    obtain ⟨c2, hc2, hrank2, hburn2⟩ := ih (applySimOp op g) c1 hc1
    refine ⟨c2, by simpa [applySimOps] using hc2, le_trans hrank1 hrank2, ?_⟩
    intro hB
    have h1 : c1 = c := hburn1 hB
    have h2 : c2 = c1 := hburn2 (by rw [h1]; exact hB)
    rw [h2, h1]

/-- Witness for C5: an ignite then a tick on the 1-by-1 grass grid. -/
theorem claim5_monotone_witness :
    cellAt g1.cells 0 0 = some g1cell ∧
    (∃ c', cellAt (applySimOps [SimOp.ignite 0 0, SimOp.tick c8params rng0] g1).cells 0 0
        = some c' ∧
      stateRank g1cell.burnState ≤ stateRank c'.burnState ∧
      (g1cell.burnState = BurnState.BURNED → c' = g1cell)) :=
  ⟨rfl, claim5_monotone [SimOp.ignite 0 0, SimOp.tick c8params rng0] g1 0 0 g1cell rfl⟩

theorem getNeighbors_mem (cells : List (List Cell)) (x y : ℕ) :
    ∀ n ∈ getNeighbors cells x y, ∃ row ∈ cells, n ∈ row := by
  intro n hn
  unfold getNeighbors at hn
  obtain ⟨d, hd, hfd⟩ := List.mem_filterMap.mp hn
  simp only [] at hfd
  split_ifs at hfd with hc
  obtain ⟨row, hrow, hcell⟩ := Option.bind_eq_some.mp hfd
  exact ⟨row, List.getElem?_mem hrow, List.getElem?_mem hcell⟩

theorem spreadFromNeighbors_noBurn (cell : Cell) (params : SimulationParams)
    (rng : ℕ → ℝ) :
    ∀ (ns : List Cell) (i : ℕ), (∀ n ∈ ns, n.burnState ≠ BurnState.BURNING) →
      spreadFromNeighbors cell params rng ns i = (cell, i) := by
  intro ns
  induction ns with
  | nil =>
    intro i _
    rfl
  | cons m rest ih =>
    intro i hns
    unfold spreadFromNeighbors
    rw [if_neg (hns m (List.mem_cons_self m rest))]
    exact ih i (fun n hn => hns n (List.mem_cons_of_mem m hn))

theorem updateCell_noBurn (c : Cell) (ns : List Cell) (params : SimulationParams)
    (rng : ℕ → ℝ) (i : ℕ)
    (hc : c.burnState ≠ BurnState.BURNING)
    (hns : ∀ n ∈ ns, n.burnState ≠ BurnState.BURNING) :
    updateCellBurnState c ns params rng i = (c, i) := by
  unfold updateCellBurnState
  cases hb : c.burnState
  · exact spreadFromNeighbors_noBurn c params rng ns i hns
  · rw [hb] at hc
    exact absurd rfl hc
  · rfl

theorem stepRowAux_noBurn (pre : List (List Cell)) (params : SimulationParams)
    (rng : ℕ → ℝ)
    (hpre : ∀ row ∈ pre, ∀ c ∈ row, c.burnState ≠ BurnState.BURNING) (y : ℕ) :
    ∀ (row : List Cell) (x0 i : ℕ),
      (∀ c ∈ row, c.burnState ≠ BurnState.BURNING) →
      stepRowAux pre params rng y row x0 i = (row, i) := by
  intro row
  induction row with
  | nil =>
    intro x0 i _
    rfl
  | cons c cs ih =>
    intro x0 i hrow
    have hcell : updateCellBurnState c (getNeighbors pre x0 y) params rng i = (c, i) :=
      updateCell_noBurn c _ params rng i (hrow c (List.mem_cons_self c cs))
        (fun n hn => by
          obtain ⟨r, hr, hnr⟩ := getNeighbors_mem pre x0 y n hn
          exact hpre r hr n hnr)
    simp only [stepRowAux]
    rw [hcell, ih (x0 + 1) i (fun c' hc' => hrow c' (List.mem_cons_of_mem c hc'))]

theorem stepGridAux_noBurn (pre : List (List Cell)) (params : SimulationParams)
    (rng : ℕ → ℝ)
    (hpre : ∀ row ∈ pre, ∀ c ∈ row, c.burnState ≠ BurnState.BURNING) :
    ∀ (rows : List (List Cell)) (y0 i : ℕ),
      (∀ row ∈ rows, ∀ c ∈ row, c.burnState ≠ BurnState.BURNING) →
      stepGridAux pre params rng rows y0 i = (rows, i) := by
  intro rows
  induction rows with
  | nil =>
    intro y0 i _
    rfl
  | cons row rest ih =>
    intro y0 i hrows
    simp only [stepGridAux]
    rw [stepRowAux_noBurn pre params rng hpre y0 row 0 i
        (hrows row (List.mem_cons_self row rest)),
      ih (y0 + 1) i (fun r hr => hrows r (List.mem_cons_of_mem row hr))]

/-- Claim C7 (amended): a tick leaves an all-Water grid unchanged for any
parameters and any random stream, provided no cell of the grid is Burning
(as holds for every all-Water grid the system can construct, since water
cannot be ignited). -/
theorem claim7_water_grid_fixed (g : GridData) (params : SimulationParams)
    (rng : ℕ → ℝ)
    (hwater : ∀ row ∈ g.cells, ∀ c ∈ row, c.terrain = TerrainType.WATER)
    (hnoburn : ∀ row ∈ g.cells, ∀ c ∈ row, c.burnState ≠ BurnState.BURNING) :
    stepSimulation g params rng = g := by
  unfold stepSimulation
  rw [stepGridAux_noBurn g.cells params rng hnoburn g.cells 0 0 hnoburn]

/-- Fixture: a Burning water cell, unreachable through the public
operations but expressible as grid data. -/
def burningWaterCell : Cell :=
  { terrain := TerrainType.WATER, burnState := BurnState.BURNING, x := 0, y := 0,
    windX := 0, windY := 0, humidity := 40, temperature := 30,
    burnIntensity := 1, burnDuration := 0 }

/-- Counterexample to C7 as stated: an all-Water grid containing a Burning
water cell is changed by the tick (the cell's burnDuration increments), so
quantifying over every grid with Water terrain alone is too strong. -/
theorem claim7_counterexample :
    (∀ row ∈ (g1x1 burningWaterCell).cells, ∀ c ∈ row,
      c.terrain = TerrainType.WATER) ∧
    stepSimulation (g1x1 burningWaterCell) c8params rng0 ≠ g1x1 burningWaterCell := by
  constructor
  · intro row hr c hc
    simp only [g1x1] at hr
    rw [List.mem_singleton] at hr
    subst hr
    rw [List.mem_singleton] at hc
    subst hc
    rfl
  · intro h
    have hcond : ¬ (((burningWaterCell.burnDuration + 1 : ℤ) : ℝ)
          ≥ (getFlammability burningWaterCell.terrain : ℚ) * 20 + 10
        ∨ max 0 (burningWaterCell.burnIntensity - 0.05) ≤ 0.1) := by
      push_neg
      constructor
      · norm_num [burningWaterCell, getFlammability]
      · rw [show burningWaterCell.burnIntensity = 1 from rfl]
        exact lt_of_lt_of_le (by norm_num) (le_max_right _ _)
    rw [step_g1x1, updateCell_burning_continue burningWaterCell [] c8params rng0 0
      rfl hcond] at h
    have h3 : ({ burningWaterCell with
        burnDuration := burningWaterCell.burnDuration + 1,
        burnIntensity := max 0 (burningWaterCell.burnIntensity - 0.05) } : Cell)
        = burningWaterCell := by
      have := congrArg GridData.cells h
      simp only [g1x1, List.cons.injEq] at this
      exact this.1.1
    have h4 := congrArg Cell.burnDuration h3
    simp only [] at h4
    omega

/-- Witness for the amended C7 on the 1-by-1 unburned water grid. -/
theorem claim7_water_grid_fixed_witness :
    (∀ row ∈ gW.cells, ∀ c ∈ row, c.terrain = TerrainType.WATER) ∧
    (∀ row ∈ gW.cells, ∀ c ∈ row, c.burnState ≠ BurnState.BURNING) ∧
    stepSimulation gW c8params rng0 = gW := by
  have hwater : ∀ row ∈ gW.cells, ∀ c ∈ row, c.terrain = TerrainType.WATER := by
    intro row hr c hc
    simp only [gW, g1x1] at hr
    rw [List.mem_singleton] at hr
    subst hr
    rw [List.mem_singleton] at hc
    subst hc
    rfl
  have hnob : ∀ row ∈ gW.cells, ∀ c ∈ row, c.burnState ≠ BurnState.BURNING := by
    intro row hr c hc
    simp only [gW, g1x1] at hr
    rw [List.mem_singleton] at hr
    subst hr
    rw [List.mem_singleton] at hc
    subst hc
    intro h
    exact BurnState.noConfusion h
  exact ⟨hwater, hnob, claim7_water_grid_fixed gW c8params rng0 hwater hnob⟩

theorem windEffect_ge (a b c d w : ℝ) :
    -0.4 ≤ calculateWindEffect a b c d w := by
  simp only [calculateWindEffect]
  have := Real.neg_one_le_cos
    ((min |jsMod (w + 360) 360 - jsMod (jsAtan2 (d - b) (c - a) * 180 / Real.pi + 360) 360|
      (360 - |jsMod (w + 360) 360 -
        jsMod (jsAtan2 (d - b) (c - a) * 180 / Real.pi + 360) 360|)) * Real.pi / 180)
  nlinarith

theorem spreadProb_pos (f t : Cell) (p : SimulationParams) (w : ℝ)
    (hflam : 0 < getFlammability t.terrain) (hhum : p.humidity < 100)
    (hrain : p.rainLikelihood < 100) (hint : 0 ≤ f.burnIntensity)
    (hw : -0.4 ≤ w) :
    0 < calculateSpreadProbability f t p w := by
  simp only [calculateSpreadProbability]
  have hP : (0:ℝ) < (getFlammability t.terrain : ℚ) := by exact_mod_cast hflam
  have hT : (0:ℝ) < 0.5 + 0.5 * max 0 ((p.temperature - 20) / 50) := by
    have := le_max_left (0:ℝ) ((p.temperature - 20) / 50)
    linarith
  have hH : (0:ℝ) < max 0 ((100 - p.humidity) / 100) :=
    lt_of_lt_of_le (div_pos (by linarith) (by norm_num)) (le_max_right _ _)
  have hR : (0:ℝ) < max 0 ((100 - p.rainLikelihood) / 100) :=
    lt_of_lt_of_le (div_pos (by linarith) (by norm_num)) (le_max_right _ _)
  have hW : (0:ℝ) < 0.8 + 0.4 * w := by linarith
  have hI : (0:ℝ) < 0.5 + 0.5 * f.burnIntensity := by linarith
  exact lt_min (by norm_num) (by positivity)

theorem spreadFromNeighbors_break (cell : Cell) (params : SimulationParams)
    (rng : ℕ → ℝ) (hb : cell.burnState = BurnState.UNBURNED) :
    ∀ (pre : List Cell) (n : Cell) (post : List Cell) (i j : ℕ),
      spreadFromNeighbors cell params rng pre i = (cell, j) →
      n.burnState = BurnState.BURNING →
      rng j < calculateSpreadProbability n cell params
        (calculateWindEffect (n.x : ℝ) (n.y : ℝ) (cell.x : ℝ) (cell.y : ℝ)
          params.windDirection) * 0.1 →
      spreadFromNeighbors cell params rng (pre ++ n :: post) i
        = ({ cell with burnState := BurnState.BURNING, burnIntensity := rng (j + 1) * 0.5 + 0.5, burnDuration := 0 }, j + 2) := by
  intro pre
  induction pre with
  | nil =>
    intro n post i j hpre hn hdraw
    have hij : i = j := congrArg Prod.snd hpre
    subst hij
    rw [List.nil_append]
    unfold spreadFromNeighbors
    simp only []
    rw [if_pos hn, if_pos hdraw]
  | cons m pre ih =>
    intro n post i j hpre hn hdraw
    rw [List.cons_append]
    unfold spreadFromNeighbors at hpre ⊢
    simp only [] at hpre ⊢
    by_cases h1 : m.burnState = BurnState.BURNING
    · rw [if_pos h1] at hpre ⊢
      by_cases h2 : rng i < calculateSpreadProbability m cell params
          (calculateWindEffect (m.x : ℝ) (m.y : ℝ) (cell.x : ℝ) (cell.y : ℝ)
            params.windDirection) * 0.1
      · exfalso
        rw [if_pos h2] at hpre
        have hbs := congrArg (fun p => Cell.burnState (Prod.fst p)) hpre
        simp only [] at hbs
        rw [hb] at hbs
        exact BurnState.noConfusion hbs
      · rw [if_neg h2] at hpre ⊢
        exact ih n post (i + 1) j hpre hn hdraw
    · rw [if_neg h1] at hpre ⊢
      exact ih n post i j hpre hn hdraw

theorem updateCell_unburned (cell : Cell) (ns : List Cell)
    (params : SimulationParams) (rng : ℕ → ℝ) (i : ℕ)
    (h : cell.burnState = BurnState.UNBURNED) :
    updateCellBurnState cell ns params rng i
      = spreadFromNeighbors cell params rng ns i := by
  unfold updateCellBurnState
  rw [h]

/-- Fixture: an unburned grass cell carrying its own grid coordinates. -/
def coordCell (x y : ℤ) : Cell :=
  { terrain := TerrainType.GRASS, burnState := BurnState.UNBURNED, x := x, y := y,
    windX := 0, windY := 0, humidity := 40, temperature := 30,
    burnIntensity := 0, burnDuration := 0 }

/-- Fixture: a 3-by-3 grid of coordinate-labelled cells. -/
def g3cells : List (List Cell) :=
  [[coordCell 0 0, coordCell 1 0, coordCell 2 0],
   [coordCell 0 1, coordCell 1 1, coordCell 2 1],
   [coordCell 0 2, coordCell 1 2, coordCell 2 2]]

/-- Counterexample to C3 as stated: at the center of a 3-by-3 grid the
neighbor cells are NOT visited in the positions obtained by reading the
offset table as (dy, dx); the source destructures each entry as [dx, dy],
so the second neighbor visited is the west cell, not the north cell. -/
theorem claim3_counterexample :
    (getNeighbors g3cells 1 1).map (fun c => (c.x, c.y))
      ≠ specNeighborPositionsDyDx 1 1 3 3 := by
  intro h
  have h1 : (getNeighbors g3cells 1 1).map (fun c => (c.x, c.y))
      = [(0, 0), (0, 1), (0, 2), (1, 0), (1, 2), (2, 0), (2, 1), (2, 2)] := rfl
  have h2 : specNeighborPositionsDyDx 1 1 3 3
      = [(0, 0), (1, 0), (2, 0), (0, 1), (2, 1), (0, 2), (1, 2), (2, 2)] := rfl
  rw [h1, h2] at h
  exact absurd h (by decide)

/-- Claim C3 (amended): the tick evaluates an Unburned cell's Moore
neighbors in the fixed offset order with each entry read as (dx, dy) —
equivalently, reading the offsets as (dy, dx) gives the transposed order —
and evaluation stops at the first neighbor whose random draw ignites the
cell: the result does not depend on any neighbor after it. -/
theorem claim3_neighbor_order_and_break :
    (∀ (g : GridData), wellFormed g →
      (∀ (y' x' : ℕ) (c : Cell), cellAt g.cells y' x' = some c →
        c.x = (x' : ℤ) ∧ c.y = (y' : ℤ)) →
      ∀ (x y : ℕ), x < g.width → y < g.height →
      (getNeighbors g.cells x y).map (fun c => (c.x, c.y))
        = specNeighborPositionsDxDy (x : ℤ) (y : ℤ) g.width g.height) ∧
    (∀ (cell n : Cell) (pre post post2 : List Cell) (params : SimulationParams)
      (rng : ℕ → ℝ) (i j : ℕ),
      cell.burnState = BurnState.UNBURNED →
      spreadFromNeighbors cell params rng pre i = (cell, j) →
      n.burnState = BurnState.BURNING →
      rng j < calculateSpreadProbability n cell params
        (calculateWindEffect (n.x : ℝ) (n.y : ℝ) (cell.x : ℝ) (cell.y : ℝ)
          params.windDirection) * 0.1 →
      updateCellBurnState cell (pre ++ n :: post) params rng i
          = updateCellBurnState cell (pre ++ n :: post2) params rng i ∧
      updateCellBurnState cell (pre ++ n :: post) params rng i
          = ({ cell with burnState := BurnState.BURNING, burnIntensity := rng (j + 1) * 0.5 + 0.5, burnDuration := 0 }, j + 2)) := by
  constructor
  · intro g hwf hcoord x y hx hy
    obtain ⟨hlen, hrows⟩ := hwf
    have hpos : 0 < g.cells.length := by
      rw [hlen]
      omega
    have hrw : rowWidth g.cells = g.width := by
      rcases hcells : g.cells with _ | ⟨r, rs⟩
      · rw [hcells] at hpos
        simp at hpos
      · rw [hcells] at hrows
        have : r.length = g.width := hrows r (List.mem_cons_self r rs)
        simpa [rowWidth] using this
    unfold getNeighbors specNeighborPositionsDxDy
    rw [List.map_filterMap]
    refine List.filterMap_congr ?_
    intro d hd
    simp only []
    rw [hrw, hlen]
    split_ifs with hc
    · obtain ⟨h1, h2, h3, h4⟩ := hc
      have hyy : ((y:ℤ) + d.2).toNat < g.cells.length := by
        rw [hlen]
        omega
      have hrowl : (g.cells[((y:ℤ) + d.2).toNat]).length = g.width :=
        hrows _ (List.getElem_mem hyy)
      have hxx : ((x:ℤ) + d.1).toNat < (g.cells[((y:ℤ) + d.2).toNat]).length := by
        rw [hrowl]
        omega
      have hcell : cellAt g.cells ((y:ℤ) + d.2).toNat ((x:ℤ) + d.1).toNat
          = some ((g.cells[((y:ℤ) + d.2).toNat])[((x:ℤ) + d.1).toNat]) := by
        rw [cellAt, List.getElem?_eq_getElem hyy, Option.some_bind,
          List.getElem?_eq_getElem hxx]
      rw [hcell]
      obtain ⟨hcx, hcy⟩ := hcoord _ _ _ hcell
      simp only [Option.map_some']
      rw [hcx, hcy, Int.toNat_of_nonneg h1, Int.toNat_of_nonneg h3]
    · rfl
  · intro cell n pre post post2 params rng i j hunb hpre hn hdraw
    have hA := spreadFromNeighbors_break cell params rng hunb pre n post i j hpre hn hdraw
    have hB := spreadFromNeighbors_break cell params rng hunb pre n post2 i j hpre hn hdraw
    rw [updateCell_unburned cell _ params rng i hunb,
      updateCell_unburned cell _ params rng i hunb]
    exact ⟨hA.trans hB.symm, hA⟩

/-- Fixture: the 3-by-3 coordinate-labelled grid. -/
def g3 : GridData :=
  { cells := g3cells, width := 3, height := 3, bounds := bbox0, cellSize := 1 }

/-- Fixture: a burning grass neighbor at (1, 0). -/
def bcell3 : Cell :=
  { terrain := TerrainType.GRASS, burnState := BurnState.BURNING, x := 1, y := 0,
    windX := 0, windY := 0, humidity := 40, temperature := 30,
    burnIntensity := 1, burnDuration := 0 }

/-- Fixture: the all-zero random stream (every draw succeeds when the
spread probability is positive). -/
def rngZ : ℕ → ℝ := fun _ => 0

/-- Witness for the amended C3: neighbor order at the center of the 3-by-3
grid, and an ignition that makes the result independent of the remaining
neighbors. -/
theorem claim3_neighbor_order_and_break_witness :
    wellFormed g3 ∧
    ((getNeighbors g3.cells 1 1).map (fun c => (c.x, c.y))
      = specNeighborPositionsDxDy 1 1 g3.width g3.height) ∧
    (coordCell 0 0).burnState = BurnState.UNBURNED ∧
    bcell3.burnState = BurnState.BURNING ∧
    updateCellBurnState (coordCell 0 0) ([] ++ bcell3 :: [waterCell]) c8params rngZ 0
      = updateCellBurnState (coordCell 0 0) ([] ++ bcell3 :: []) c8params rngZ 0 := by
  have hwf : wellFormed g3 := by
    constructor
    · rfl
    · intro row hr
      simp [g3, g3cells] at hr
      rcases hr with rfl | rfl | rfl
      · rfl
      · rfl
      · rfl
  have hcoord : ∀ (y' x' : ℕ) (c : Cell), cellAt g3.cells y' x' = some c →
      c.x = (x' : ℤ) ∧ c.y = (y' : ℤ) := by
    intro y' x' c hc
    rcases y' with _ | _ | _ | y3 <;> rcases x' with _ | _ | _ | x3 <;>
      simp [g3, g3cells, cellAt] at hc <;>
      (subst hc; exact ⟨rfl, rfl⟩)
  have hdraw : rngZ 0 < calculateSpreadProbability bcell3 (coordCell 0 0) c8params
      (calculateWindEffect (bcell3.x : ℝ) (bcell3.y : ℝ) ((coordCell 0 0).x : ℝ)
        ((coordCell 0 0).y : ℝ) c8params.windDirection) * 0.1 := by
    show (0:ℝ) < _
    refine mul_pos (spreadProb_pos bcell3 (coordCell 0 0) c8params _ ?_ ?_ ?_ ?_
      (windEffect_ge _ _ _ _ _)) (by norm_num)
    · norm_num [coordCell, getFlammability]
    · norm_num [c8params]
    · norm_num [c8params]
    · norm_num [bcell3]
  refine ⟨hwf,
    claim3_neighbor_order_and_break.1 g3 hwf hcoord 1 1
      (by norm_num [g3]) (by norm_num [g3]),
    rfl, rfl, ?_⟩
  exact (claim3_neighbor_order_and_break.2 (coordCell 0 0) bcell3 [] [waterCell] []
    c8params rngZ 0 0 rfl rfl rfl hdraw).1
